import Mathlib

/-!
Shallow embedding of `src/main.py` (BookTubePhonetics): the manifest
interpretation and multi-strategy acquisition pipeline.

Strings are modelled as lists of characters (`Str`).  Python builtins that
the source uses (`str.split`, `str.strip`, `str.lower`, `int`, `in`,
f-string zero padding) are modelled on the ASCII alphabet the manifest uses;
this is noted at each definition.  External effects (subprocess invocations,
the filesystem) are modelled by explicit environments: each claim quantifies
over every environment, so no behaviour of the collaborators is assumed.
-/

abbrev Str := List Char

/-- ASCII whitespace recognized by Python `str.strip()` and `int()`:
space, tab, newline, carriage return, vertical tab, form feed. -/
def pySpace (c : Char) : Bool :=
  c == ' ' || c == '\t' || c == '\n' || c == '\r' ||
  c == Char.ofNat 11 || c == Char.ofNat 12

/-- Python `str.strip()` (ASCII whitespace). -/
def pyStrip (s : Str) : Str :=
  ((s.dropWhile pySpace).reverse.dropWhile pySpace).reverse

def isDigitChar (c : Char) : Bool := '0' ≤ c && c ≤ '9'

/-- Value of a big-endian decimal digit string. -/
def digitsVal (l : Str) : Nat := l.foldl (fun a c => 10 * a + (c.toNat - 48)) 0

/-- Model of Python `int(str)` on the manifest's ASCII alphabet: optional
surrounding whitespace, an optional single sign, then a nonempty run of
decimal digits.  (Python additionally accepts underscore digit separators
and non-ASCII digits, which do not occur in this repository's inputs.) -/
def pyInt (s : Str) : Option Int :=
  let t := pyStrip s
  let digits := if t.headD ' ' == '+' || t.headD ' ' == '-' then t.tail else t
  if !digits.isEmpty && digits.all isDigitChar then
    if t.headD ' ' == '-' then some (-(digitsVal digits : Int))
    else some (digitsVal digits)
  else none

/-- Python `str.split(sep)` for a single-character separator (the source only
splits on `':'` and `'-'`).  Always returns at least one piece. -/
def splitOnChar (sep : Char) : Str → List Str
  | [] => [[]]
  | c :: rest =>
    match splitOnChar sep rest with
    | [] => [[]]
    | h :: t => if c = sep then [] :: h :: t else (c :: h) :: t

/-- `time_to_seconds` (src/main.py lines 9-16): split on `':'`;
2 parts → minutes:seconds, 3 parts → hours:minutes:seconds, any other
count → `int(parts[0])`.  `none` models the `ValueError` Python's `int`
raises on a non-numeric component. -/
def time_to_seconds (s : Str) : Option Int :=
  match splitOnChar ':' s with
  | [a, b] => do
      let x ← pyInt a
      let y ← pyInt b
      pure (x * 60 + y)
  | [a, b, c] => do
      let x ← pyInt a
      let y ← pyInt b
      let z ← pyInt c
      pure (x * 3600 + y * 60 + z)
  | parts => pyInt (parts.headD [])

/-- `parse_time_range` (src/main.py lines 18-19): `start, end = s.split('-')`
requires exactly two pieces (otherwise Python raises `ValueError`, modelled
as `none`); each piece is stripped and converted. -/
def parse_time_range (s : Str) : Option (Int × Int) :=
  match splitOnChar '-' s with
  | [a, b] => do
      let x ← time_to_seconds (pyStrip a)
      let y ← time_to_seconds (pyStrip b)
      pure (x, y)
  | _ => none

/-- `extract_prefix_from_header` (src/main.py lines 21-26):
`re.search` of the pattern `\(([^)]+)\)` — the leftmost `'('` that is
followed by a nonempty run of non-`')'` characters and then a `')'`;
returns that run, or `none` when no such group exists. -/
def extract_prefix_from_header : Str → Option Str
  | [] => none
  | c :: rest =>
    if c = '(' then
      let run := rest.takeWhile (fun d => d != ')')
      if !run.isEmpty && !(rest.drop run.length).isEmpty then some run
      else extract_prefix_from_header rest
    else extract_prefix_from_header rest

/-- Decimal digit character (the source reaches this only for `n < 10`). -/
def digitChar : Nat → Char
  | 0 => '0' | 1 => '1' | 2 => '2' | 3 => '3' | 4 => '4'
  | 5 => '5' | 6 => '6' | 7 => '7' | 8 => '8' | 9 => '9'
  | _ => '*'

/-- Fuel-driven decimal representation (big-endian), total for `fuel > n`. -/
def natReprAux : Nat → Nat → Str
  | 0, _ => []
  | fuel + 1, n =>
    if n < 10 then [digitChar n]
    else natReprAux fuel (n / 10) ++ [digitChar (n % 10)]

/-- Python `str(n)` / `f"{n:d}"` for a natural number. -/
def natRepr (n : Nat) : Str := natReprAux (n + 1) n

/-- Python format spec `02d` on a natural number: left-pad with `'0'` to
width 2. -/
def pad2 (n : Nat) : Str := if n < 10 then '0' :: natRepr n else natRepr n

/-- `format_time` (src/main.py lines 28-36).  The source applies it only to
the non-negative second counts produced for valid jobs, so it is modelled on
naturals. -/
def format_time (seconds : Nat) : Str :=
  let hours := seconds / 3600
  let minutes := seconds % 3600 / 60
  let secs := seconds % 60
  if hours > 0 then pad2 hours ++ ':' :: (pad2 minutes ++ ':' :: pad2 secs)
  else pad2 minutes ++ ':' :: pad2 secs

/-- Vocabulary for the spec's notion of a valid time component: a string
that Python `int` accepts with a non-negative value. -/
def nonnegNumeric (p : Str) : Bool :=
  match pyInt p with
  | some v => decide (0 ≤ v)
  | none => false

/-! ### Segment Acquirer: `download_youtube_segment` (src/main.py lines 38-154) -/

inductive Method where
  | cookiesFile
  | browser (name : Str)
deriving DecidableEq, Repr

/-- The ordered fetch-attempt list (lines 50-82): one stored-credential
attempt when a cookies-file argument was given and the file exists, then one
attempt per browser, in the fixed order chrome, safari, firefox. -/
def download_methods (useCookiesFile : Bool) : List Method :=
  (if useCookiesFile then [Method.cookiesFile] else []) ++
  [Method.browser "chrome".data, Method.browser "safari".data,
   Method.browser "firefox".data]

/-- Environment of one `download_youtube_segment` call: the behaviour of the
external tools and the filesystem.  `runOk i` is whether the i-th yt-dlp
invocation exits with status 0 (otherwise `subprocess.run(check=True)` raises
`CalledProcessError`, caught on lines 90-92); `sizeAfter i` is the size of
the temporary artifact after the i-th invocation returns (0 covers both an
absent and an empty file); `trimOk` is whether the ffmpeg trim invocation
exits with status 0. -/
structure FetchEnv where
  runOk : Nat → Bool
  sizeAfter : Nat → Nat
  trimOk : Bool

/-- The attempt loop (lines 85-116): try each method in order, recording the
last raising invocation for diagnostics; the loop is left exactly when a
non-empty temporary artifact exists after an attempt, regardless of the
invocation's exit status.  Returns the index of the successful attempt (if
any) and the index of the last raising invocation among those made. -/
def fetchLoop (runOk : Nat → Bool) (sizeAfter : Nat → Nat) :
    Nat → Nat → Option Nat → Option Nat × Option Nat
  | _, 0, lastErr => (none, lastErr)
  | i, rem + 1, lastErr =>
    let lastErr' := if runOk i then lastErr else some i
    if sizeAfter i > 0 then (some i, lastErr')
    else fetchLoop runOk sizeAfter (i + 1) rem lastErr'

/-- Observable outcome of one `download_youtube_segment` call. -/
structure DownloadResult where
  retVal : Bool              -- the Python return value
  fetchInvocations : Nat     -- number of yt-dlp invocations made
  fetchedAt : Option Nat     -- attempt index after which the artifact check passed
  lastErrorFrom : Option Nat -- diagnostics: last fetch invocation that raised
  transcodeInvoked : Bool    -- whether the ffmpeg trim step ran
  finalTempExists : Bool     -- whether the temporary artifact remains on return
deriving DecidableEq, Repr

/-- `download_youtube_segment` (lines 38-154) over an explicit environment.
`cookiesArg` is whether a cookies-file argument was passed, `credFileExists`
whether that file exists (line 54).  On every return path the source removes
any remaining temporary artifact (lines 113-115, 121-122, 141-143, 151-153),
so `finalTempExists` is `false` in each branch. -/
def download_youtube_segment (env : FetchEnv) (cookiesArg credFileExists : Bool) :
    DownloadResult :=
  let methods := download_methods (cookiesArg && credFileExists)
  let n := methods.length
  match fetchLoop env.runOk env.sizeAfter 0 n none with
  | (none, le) =>
      -- all methods exhausted (lines 104-116): report, clean up, return False
      { retVal := false, fetchInvocations := n, fetchedAt := none,
        lastErrorFrom := le, transcodeInvoked := false, finalTempExists := false }
  | (some i, le) =>
      -- lines 119-123 re-check the artifact; the loop exited with a
      -- non-empty artifact, so control reaches the trim step (lines 125-154)
      if env.trimOk then
        { retVal := true, fetchInvocations := i + 1, fetchedAt := some i,
          lastErrorFrom := le, transcodeInvoked := true, finalTempExists := false }
      else
        { retVal := false, fetchInvocations := i + 1, fetchedAt := some i,
          lastErrorFrom := le, transcodeInvoked := true, finalTempExists := false }

/-! ### Manifest Reader / Run Orchestrator: `main` (src/main.py lines 156-278) -/

structure Job where
  pfx : Str
  video_id : Str
  start_time : Int
  end_time : Int
  seg_num : Nat
  output_filename : Str
deriving DecidableEq, Repr

/-- Lookup in the `video_id_counts` dictionary. -/
def lookupCount : List (Str × Nat) → Str → Option Nat
  | [], _ => none
  | (k, v) :: rest, key => if k = key then some v else lookupCount rest key

/-- Dictionary write `counts[key] = v`. -/
def setCount : List (Str × Nat) → Str → Nat → List (Str × Nat)
  | [], key, v => [(key, v)]
  | (k, w) :: rest, key, v =>
    if k = key then (k, v) :: rest else (k, w) :: setCount rest key v

/-- The loop state of `main` (lines 211-213): the active prefix (`None`
before the first header and after a header without a parenthesized label),
the current output folder, and the per-reference occurrence counts. -/
structure LoopState where
  pfx : Option Str
  output_folder : Option Str
  video_id_counts : List (Str × Nat)
deriving DecidableEq, Repr

def initState : LoopState :=
  { pfx := none, output_folder := none, video_id_counts := [] }

deriving instance DecidableEq for Except

/-- Python truthiness of an optional string (`None` and `""` are falsy). -/
def truthy : Option Str → Bool
  | none => false
  | some l => !l.isEmpty

/-- Python substring test `pat in s`. -/
def containsSub (pat : Str) : Str → Bool
  | [] => pat.isEmpty
  | c :: rest => pat.isPrefixOf (c :: rest) || containsSub pat rest

/-- Python `len(row) > 0 and 'id (' in row[0].lower()` (line 218).
`str.lower` is modelled by `Char.toLower`, which agrees with Python on the
manifest's ASCII alphabet. -/
def isHeaderRow (row : List Str) : Bool :=
  !row.isEmpty && containsSub "id (".data ((row.headD []).map Char.toLower)

/-- One iteration of the row loop (lines 216-278).  `Except` models Python
exception propagation: `.error ()` is the uncaught `ValueError` escaping
`parse_time_range` (line 253), which aborts the whole run.  The returned
`Option Job` is the job handed to the Segment Acquirer, if any. -/
def processRow (st : LoopState) (row : List Str) :
    Except Unit (LoopState × Option Job) :=
  if isHeaderRow row then
    -- lines 218-231: the prefix is unconditionally overwritten with the
    -- extraction result; only a truthy result opens a folder and resets the
    -- counters, and a header row always ends with `continue`
    let p := extract_prefix_from_header (row.headD [])
    if truthy p then
      .ok ({ pfx := p, output_folder := p.map (fun l => "wav/".data ++ l),
             video_id_counts := [] }, none)
    else
      .ok ({ st with pfx := p }, none)
  else if row.length < 2 then .ok (st, none)                             -- 233-235
  else if !truthy st.pfx || st.output_folder.isNone then .ok (st, none)  -- 237-239
  else
    let video_id := pyStrip (row.headD [])
    let time_range := pyStrip (row.getD 1 [])
    if video_id.isEmpty || time_range.isEmpty then .ok (st, none)        -- 244-245
    else if video_id.length ≠ 11 then .ok (st, none)                     -- 247-250
    else
      match parse_time_range time_range with
      | none => .error ()                                                -- line 253 raises
      | some (s, e) =>
        let counts := match lookupCount st.video_id_counts video_id with -- 255-259
          | some v => setCount st.video_id_counts video_id (v + 1)
          | none => setCount st.video_id_counts video_id 0
        let seg := (lookupCount counts video_id).getD 0                  -- line 261
        .ok ({ st with video_id_counts := counts },
             some { pfx := st.pfx.getD [], video_id := video_id,
                    start_time := s, end_time := e, seg_num := seg,
                    output_filename :=                                   -- line 264
                      (st.pfx.getD []) ++ '-' :: video_id ++ "_seg".data
                        ++ natRepr seg ++ ".wav".data })

/-- Outcome of a run: aborted by the authorization check (`sys.exit(1)`,
line 199), crashed on an uncaught exception mid-manifest, or completed.
The list records each job handed to the Segment Acquirer together with the
boolean that `download_youtube_segment` returned, which `main` discards
(line 278). -/
inductive RunOutcome where
  | abortedNoAuth
  | crashed (jobs : List (Job × Bool))
  | completed (jobs : List (Job × Bool))
deriving DecidableEq, Repr

def RunOutcome.jobsDone : RunOutcome → List (Job × Bool)
  | .abortedNoAuth => []
  | .crashed js => js
  | .completed js => js

/-- Process exit status: 1 via `sys.exit(1)` on the failed authorization
check, otherwise 0 (per-job failures never change it). -/
def RunOutcome.exitCode : RunOutcome → Nat
  | .abortedNoAuth => 1
  | _ => 0

/-- The row loop (lines 216-278) over the manifest rows; `dl` gives the
boolean result of each `download_youtube_segment` call. -/
def runRows (dl : Job → Bool) (st : LoopState) : List (List Str) → RunOutcome
  | [] => .completed []
  | row :: rest =>
    match processRow st row with
    | .error () => .crashed []
    | .ok (st', none) => runRows dl st' rest
    | .ok (st', some j) =>
      match runRows dl st' rest with
      | .crashed js => .crashed ((j, dl j) :: js)
      | .completed js => .completed ((j, dl j) :: js)
      | .abortedNoAuth => .abortedNoAuth   -- runRows never returns this

/-- Filesystem facts consulted by `main` before reading the manifest
(lines 162-189): existence of `cookies.txt` and of the five well-known
browser credential directories (two Chrome, one Safari, two Firefox). -/
structure RunEnv where
  cookiesFileExists : Bool
  chromeConfig : Bool
  chromeAppSupport : Bool
  safariCookies : Bool
  firefoxMozilla : Bool
  firefoxAppSupport : Bool
deriving DecidableEq, Repr

/-- `main` (lines 156-278): the authorization check, then the row loop.
The browser directories are probed only when `cookies.txt` is absent
(lines 167-189); when no source exists, the run exits with status 1 before
opening the manifest (lines 191-199). -/
def mainRun (env : RunEnv) (dl : Job → Bool) (rows : List (List Str)) : RunOutcome :=
  let has_cookies_file := env.cookiesFileExists
  let has_browser_cookies :=
    !has_cookies_file &&
      (env.chromeConfig || env.chromeAppSupport || env.safariCookies ||
       env.firefoxMozilla || env.firefoxAppSupport)
  if !has_cookies_file && !has_browser_cookies then .abortedNoAuth
  else runRows dl initState rows

/-! ### Helper lemmas: digit strings and splitting -/

theorem space_not_digit {c : Char} (h : pySpace c = true) : isDigitChar c = false := by
  simp only [pySpace, Bool.or_eq_true, beq_iff_eq] at h
  rcases h with ((((h | h) | h) | h) | h) | h <;> subst h <;> decide

theorem digit_not_space {c : Char} (h : isDigitChar c = true) : pySpace c = false := by
  cases hp : pySpace c
  · rfl
  · rw [space_not_digit hp] at h; cases h

theorem dropWhile_eq_self_of {p : Char → Bool} :
    ∀ {l : Str}, (∀ c ∈ l, p c = false) → List.dropWhile p l = l
  | [], _ => rfl
  | c :: cs, h => by
    simp [List.dropWhile_cons, h c (by simp)]

theorem pyStrip_eq_self {l : Str} (h : ∀ c ∈ l, pySpace c = false) : pyStrip l = l := by
  unfold pyStrip
  rw [dropWhile_eq_self_of h, dropWhile_eq_self_of (fun c hc => h c (by
    simpa using hc)), List.reverse_reverse]

theorem digitsVal_append (l : Str) (c : Char) :
    digitsVal (l ++ [c]) = 10 * digitsVal l + (c.toNat - 48) := by
  simp [digitsVal, List.foldl_append]

theorem pyInt_digits {l : Str} (h1 : l ≠ []) (h2 : l.all isDigitChar = true) :
    pyInt l = some (digitsVal l : Int) := by
  have hs : pyStrip l = l := pyStrip_eq_self (fun c hc =>
    digit_not_space (by exact List.all_eq_true.mp h2 c hc))
  rcases l with _ | ⟨c, cs⟩
  · exact absurd rfl h1
  · have hc : isDigitChar c = true := List.all_eq_true.mp h2 c (by simp)
    have hplus : (c == '+') = false := by
      rw [beq_eq_false_iff_ne]; rintro rfl; revert hc; decide
    have hminus : (c == '-') = false := by
      rw [beq_eq_false_iff_ne]; rintro rfl; revert hc; decide
    simp [pyInt, hs, hplus, hminus, h2]

theorem digitChar_isDigit {n : Nat} (h : n < 10) : isDigitChar (digitChar n) = true := by
  interval_cases n <;> decide

theorem digitChar_toNat {n : Nat} (h : n < 10) : (digitChar n).toNat - 48 = n := by
  interval_cases n <;> decide

theorem natReprAux_spec :
    ∀ fuel n, n < fuel →
      natReprAux fuel n ≠ [] ∧ (natReprAux fuel n).all isDigitChar = true ∧
      digitsVal (natReprAux fuel n) = n := by
  intro fuel
  induction fuel with
  | zero => intro n h; omega
  | succ f ih =>
    intro n h
    by_cases h10 : n < 10
    · refine ⟨by simp [natReprAux, h10], ?_, ?_⟩
      · simp [natReprAux, h10, digitChar_isDigit h10]
      · simp [natReprAux, h10, digitsVal, digitChar_toNat h10]
    · have hdiv : n / 10 < f := by omega
      obtain ⟨ne, ad, dv⟩ := ih (n / 10) hdiv
      have hm : n % 10 < 10 := Nat.mod_lt _ (by omega)
      refine ⟨by simp [natReprAux, h10], ?_, ?_⟩
      · simp [natReprAux, h10, List.all_append, ad, digitChar_isDigit hm]
      · rw [natReprAux]
        simp only [h10, if_false, digitsVal_append, dv, digitChar_toNat hm]
        omega

theorem natRepr_spec (n : Nat) :
    natRepr n ≠ [] ∧ (natRepr n).all isDigitChar = true ∧ digitsVal (natRepr n) = n :=
  natReprAux_spec (n + 1) n (by omega)

theorem pad2_spec (n : Nat) :
    pad2 n ≠ [] ∧ (pad2 n).all isDigitChar = true ∧ digitsVal (pad2 n) = n := by
  obtain ⟨ne, ad, dv⟩ := natRepr_spec n
  unfold pad2
  by_cases h : n < 10
  · refine ⟨by simp [h], ?_, ?_⟩
    · rw [if_pos h]
      simp only [List.all_cons, Bool.and_eq_true]
      exact ⟨by decide, ad⟩
    · have : digitsVal ('0' :: natRepr n) = digitsVal (natRepr n) := by
        simp [digitsVal]
      simp [h, this, dv]
  · simp [h, ne, ad, dv]

theorem pyInt_pad2 (n : Nat) : pyInt (pad2 n) = some (n : Int) := by
  obtain ⟨ne, ad, dv⟩ := pad2_spec n
  rw [pyInt_digits ne ad, dv]

theorem digit_ne_colon {c : Char} (h : isDigitChar c = true) : c ≠ ':' := by
  rintro rfl; revert h; decide

theorem splitOnChar_ne_nil (sep : Char) : ∀ l : Str, splitOnChar sep l ≠ []
  | [] => by simp [splitOnChar]
  | c :: rest => by
    rw [splitOnChar]
    rcases h : splitOnChar sep rest with _ | ⟨hd, tl⟩
    · exact absurd h (splitOnChar_ne_nil sep rest)
    · by_cases hc : c = sep <;> simp [hc]

theorem splitOnChar_eq_single {sep : Char} :
    ∀ {l : Str}, (∀ c ∈ l, c ≠ sep) → splitOnChar sep l = [l]
  | [], _ => rfl
  | c :: rest, h => by
    rw [splitOnChar, splitOnChar_eq_single (fun d hd => h d (by simp [hd]))]
    simp [h c (by simp)]

theorem splitOnChar_append {sep : Char} :
    ∀ {a : Str} (b : Str), (∀ c ∈ a, c ≠ sep) →
      splitOnChar sep (a ++ sep :: b) = a :: splitOnChar sep b
  | [], b, _ => by
    rw [List.nil_append, splitOnChar]
    rcases h : splitOnChar sep b with _ | ⟨hd, tl⟩
    · exact absurd h (splitOnChar_ne_nil sep b)
    · simp
  | c :: a, b, h => by
    rw [List.cons_append, splitOnChar,
      splitOnChar_append b (fun d hd => h d (by simp [hd]))]
    simp [h c (by simp)]

theorem pad2_no_colon (n : Nat) : ∀ c ∈ pad2 n, c ≠ ':' := fun c hc =>
  digit_ne_colon (List.all_eq_true.mp (pad2_spec n).2.1 c hc)

theorem format_time_eq (n : Nat) :
    format_time n =
      if n / 3600 > 0 then
        pad2 (n / 3600) ++ ':' :: (pad2 (n % 3600 / 60) ++ ':' :: pad2 (n % 60))
      else pad2 (n % 3600 / 60) ++ ':' :: pad2 (n % 60) := rfl

/-- Key roundtrip fact: re-parsing the display form of any number of seconds
recovers the number. -/
theorem time_to_seconds_format (n : Nat) :
    time_to_seconds (format_time n) = some (n : Int) := by
  rw [format_time_eq]
  by_cases hh : n / 3600 > 0
  · rw [if_pos hh]
    have hsplit : splitOnChar ':'
        (pad2 (n / 3600) ++ ':' :: (pad2 (n % 3600 / 60) ++ ':' :: pad2 (n % 60)))
        = [pad2 (n / 3600), pad2 (n % 3600 / 60), pad2 (n % 60)] := by
      rw [splitOnChar_append _ (pad2_no_colon _),
        splitOnChar_append _ (pad2_no_colon _),
        splitOnChar_eq_single (pad2_no_colon _)]
    unfold time_to_seconds
    rw [hsplit]
    simp only [pyInt_pad2, Option.bind_eq_bind, Option.some_bind, Option.pure_def, Option.some.injEq]
    have hnat : n / 3600 * 3600 + n % 3600 / 60 * 60 + n % 60 = n := by omega
    exact_mod_cast hnat
  · rw [if_neg hh]
    have hsplit : splitOnChar ':' (pad2 (n % 3600 / 60) ++ ':' :: pad2 (n % 60))
        = [pad2 (n % 3600 / 60), pad2 (n % 60)] := by
      rw [splitOnChar_append _ (pad2_no_colon _),
        splitOnChar_eq_single (pad2_no_colon _)]
    unfold time_to_seconds
    rw [hsplit]
    simp only [pyInt_pad2, Option.bind_eq_bind, Option.some_bind, Option.pure_def, Option.some.injEq]
    have hnat : n % 3600 / 60 * 60 + n % 60 = n := by omega
    exact_mod_cast hnat

/-! ### Lemmas about the fetch-attempt loop -/

theorem fetchLoop_fst_indep (ro ro' : Nat → Bool) (sz : Nat → Nat) :
    ∀ rem i le le', (fetchLoop ro sz i rem le).1 = (fetchLoop ro' sz i rem le').1 := by
  intro rem
  induction rem with
  | zero => intro i le le'; rfl
  | succ r ih =>
    intro i le le'
    rw [fetchLoop, fetchLoop]
    by_cases h : sz i > 0
    · simp [h]
    · simp only [h, if_false]
      exact ih (i + 1) _ _

theorem fetchLoop_fst_eq_some (ro : Nat → Bool) (sz : Nat → Nat) :
    ∀ rem i le j, ((fetchLoop ro sz i rem le).1 = some j ↔
      (i ≤ j ∧ j < i + rem ∧ sz j > 0 ∧ ∀ k, i ≤ k → k < j → sz k = 0)) := by
  intro rem
  induction rem with
  | zero =>
    intro i le j
    simp only [fetchLoop]
    constructor
    · rintro ⟨⟩
    · rintro ⟨_, h, _⟩; omega
  | succ r ih =>
    intro i le j
    rw [fetchLoop]
    by_cases h : sz i > 0
    · simp only [h, if_true, Option.some.injEq]
      constructor
      · rintro rfl
        exact ⟨le_refl i, by omega, h, fun k hk1 hk2 => by omega⟩
      · rintro ⟨h1, _, _, h4⟩
        rcases Nat.eq_or_lt_of_le h1 with rfl | hlt
        · rfl
        · exact absurd (h4 i (le_refl i) hlt) (by omega)
    · simp only [h, if_false]
      rw [ih (i + 1)]
      constructor
      · rintro ⟨h1, h2, h3, h4⟩
        refine ⟨by omega, by omega, h3, fun k hk1 hk2 => ?_⟩
        rcases Nat.eq_or_lt_of_le hk1 with rfl | hlt
        · omega
        · exact h4 k (by omega) hk2
      · rintro ⟨h1, h2, h3, h4⟩
        have hij : i ≠ j := by rintro rfl; omega
        exact ⟨by omega, by omega, h3, fun k hk1 hk2 => h4 k (by omega) hk2⟩

theorem fetchLoop_fst_eq_none (ro : Nat → Bool) (sz : Nat → Nat) :
    ∀ rem i le, ((fetchLoop ro sz i rem le).1 = none ↔
      ∀ k, i ≤ k → k < i + rem → sz k = 0) := by
  intro rem
  induction rem with
  | zero =>
    intro i le
    simp only [fetchLoop]
    exact ⟨fun _ k h1 h2 => by omega, fun _ => trivial⟩
  | succ r ih =>
    intro i le
    rw [fetchLoop]
    by_cases h : sz i > 0
    · simp only [h, if_true]
      constructor
      · rintro ⟨⟩
      · intro hall; exact absurd (hall i (le_refl i) (by omega)) (by omega)
    · simp only [h, if_false]
      rw [ih (i + 1)]
      constructor
      · intro hall k h1 h2
        rcases Nat.eq_or_lt_of_le h1 with rfl | hlt
        · omega
        · exact hall k (by omega) (by omega)
      · intro hall k h1 h2
        exact hall k (by omega) (by omega)

theorem download_fields (env : FetchEnv) (cookiesArg credFileExists : Bool) :
    (download_youtube_segment env cookiesArg credFileExists).fetchedAt
        = (fetchLoop env.runOk env.sizeAfter 0
            (download_methods (cookiesArg && credFileExists)).length none).1 ∧
    (download_youtube_segment env cookiesArg credFileExists).transcodeInvoked
        = (fetchLoop env.runOk env.sizeAfter 0
            (download_methods (cookiesArg && credFileExists)).length none).1.isSome ∧
    (download_youtube_segment env cookiesArg credFileExists).retVal
        = ((fetchLoop env.runOk env.sizeAfter 0
            (download_methods (cookiesArg && credFileExists)).length none).1.isSome
           && env.trimOk) ∧
    (download_youtube_segment env cookiesArg credFileExists).finalTempExists = false ∧
    (download_youtube_segment env cookiesArg credFileExists).fetchInvocations
        = (match (fetchLoop env.runOk env.sizeAfter 0
            (download_methods (cookiesArg && credFileExists)).length none).1 with
           | none => (download_methods (cookiesArg && credFileExists)).length
           | some i => i + 1) := by
  rcases h : fetchLoop env.runOk env.sizeAfter 0
      (download_methods (cookiesArg && credFileExists)).length none with ⟨oi, le⟩
  rcases oi with _ | i <;> cases htrim : env.trimOk <;>
    simp [download_youtube_segment, h, htrim]

theorem fetchLoop_fst_isSome (ro : Nat → Bool) (sz : Nat → Nat) (n : Nat) :
    ((fetchLoop ro sz 0 n none).1.isSome = true ↔ ∃ j, j < n ∧ sz j > 0) := by
  rcases h : (fetchLoop ro sz 0 n none).1 with _ | j
  · rw [fetchLoop_fst_eq_none] at h
    simp only [Option.isSome_none, Bool.false_eq_true, false_iff]
    rintro ⟨j, hj1, hj2⟩
    exact absurd (h j (by omega) (by omega)) (by omega)
  · rw [fetchLoop_fst_eq_some] at h
    obtain ⟨_, h2, h3, _⟩ := h
    simp only [Option.isSome_some, true_iff]
    exact ⟨j, by omega, h3⟩

/-- C1: For every Job, the Segment Acquirer tries the fetch attempts in a
fixed order — one stored-credential attempt first when the credential file
exists, then one attempt each for chrome, safari, firefox — and an attempt
counts as a successful fetch if and only if a non-empty temporary artifact
exists after it, even when the invoked tool exited non-zero: the attempt
loop's exit (and whether transcode is reached) is determined by artifact
presence alone and is unchanged under every reassignment of the tools' exit
statuses. -/
theorem C1_fixed_order_tolerant_success :
    download_methods true =
      [Method.cookiesFile, Method.browser "chrome".data,
       Method.browser "safari".data, Method.browser "firefox".data] ∧
    download_methods false =
      [Method.browser "chrome".data, Method.browser "safari".data,
       Method.browser "firefox".data] ∧
    ∀ (env : FetchEnv) (cookiesArg credFileExists : Bool),
      (∀ j, (download_youtube_segment env cookiesArg credFileExists).fetchedAt = some j ↔
        (j < (download_methods (cookiesArg && credFileExists)).length ∧
         env.sizeAfter j > 0 ∧ ∀ k, k < j → env.sizeAfter k = 0)) ∧
      ((download_youtube_segment env cookiesArg credFileExists).transcodeInvoked = true ↔
        ∃ j, j < (download_methods (cookiesArg && credFileExists)).length ∧
          env.sizeAfter j > 0) ∧
      (∀ runOk' : Nat → Bool,
        (download_youtube_segment ⟨runOk', env.sizeAfter, env.trimOk⟩
            cookiesArg credFileExists).retVal
          = (download_youtube_segment env cookiesArg credFileExists).retVal ∧
        (download_youtube_segment ⟨runOk', env.sizeAfter, env.trimOk⟩
            cookiesArg credFileExists).fetchedAt
          = (download_youtube_segment env cookiesArg credFileExists).fetchedAt ∧
        (download_youtube_segment ⟨runOk', env.sizeAfter, env.trimOk⟩
            cookiesArg credFileExists).transcodeInvoked
          = (download_youtube_segment env cookiesArg credFileExists).transcodeInvoked) := by
  refine ⟨rfl, rfl, ?_⟩
  intro env c e
  obtain ⟨hf, ht, hr, _, _⟩ := download_fields env c e
  refine ⟨?_, ?_, ?_⟩
  · intro j
    rw [hf, fetchLoop_fst_eq_some]
    constructor
    · rintro ⟨_, h2, h3, h4⟩
      exact ⟨by omega, h3, fun k hk => h4 k (by omega) hk⟩
    · rintro ⟨h1, h2, h3⟩
      exact ⟨by omega, by omega, h2, fun k _ hk => h3 k hk⟩
  · rw [ht]
    exact fetchLoop_fst_isSome env.runOk env.sizeAfter _
  · intro ro'
    obtain ⟨hf', ht', hr', _, _⟩ := download_fields ⟨ro', env.sizeAfter, env.trimOk⟩ c e
    have hind := fetchLoop_fst_indep ro' env.runOk env.sizeAfter
      (download_methods (c && e)).length 0 none none
    refine ⟨?_, ?_, ?_⟩
    · rw [hr, hr']; simp only [hind]
    · rw [hf, hf']; exact hind
    · rw [ht, ht']; simp only [hind]

/-- C2: For every Job, if no fetch attempt yields a non-empty temporary
artifact, the Segment Acquirer reports failure (returns False after trying
every method), leaves no temporary artifact behind, and returns without
invoking the transcode collaborator. -/
theorem C2_exhaustion_no_transcode (env : FetchEnv) (cookiesArg credFileExists : Bool)
    (h : ∀ i, i < (download_methods (cookiesArg && credFileExists)).length →
      env.sizeAfter i = 0) :
    (download_youtube_segment env cookiesArg credFileExists).retVal = false ∧
    (download_youtube_segment env cookiesArg credFileExists).transcodeInvoked = false ∧
    (download_youtube_segment env cookiesArg credFileExists).finalTempExists = false ∧
    (download_youtube_segment env cookiesArg credFileExists).fetchInvocations
      = (download_methods (cookiesArg && credFileExists)).length := by
  obtain ⟨hf, ht, hr, htemp, hinv⟩ := download_fields env cookiesArg credFileExists
  have hnone : (fetchLoop env.runOk env.sizeAfter 0
      (download_methods (cookiesArg && credFileExists)).length none).1 = none :=
    (fetchLoop_fst_eq_none _ _ _ _ _).mpr (fun k _ hk => h k (by omega))
  refine ⟨?_, ?_, htemp, ?_⟩
  · rw [hr, hnone]; rfl
  · rw [ht, hnone]; rfl
  · rw [hinv, hnone]

/-- Witness for C2: a concrete environment in which every attempt leaves an
empty artifact. -/
theorem C2_exhaustion_no_transcode_witness :
    (download_youtube_segment ⟨fun _ => true, fun _ => 0, true⟩ true true).retVal = false ∧
    (download_youtube_segment ⟨fun _ => true, fun _ => 0, true⟩ true true).transcodeInvoked
      = false ∧
    (download_youtube_segment ⟨fun _ => true, fun _ => 0, true⟩ true true).finalTempExists
      = false ∧
    (download_youtube_segment ⟨fun _ => true, fun _ => 0, true⟩ true true).fetchInvocations
      = (download_methods (true && true)).length :=
  C2_exhaustion_no_transcode ⟨fun _ => true, fun _ => 0, true⟩ true true (fun _ _ => rfl)

/-! ### Lemmas about the manifest row loop -/

theorem lookupCount_setCount_self (m : List (Str × Nat)) (k : Str) (v : Nat) :
    lookupCount (setCount m k v) k = some v := by
  induction m with
  | nil => simp [setCount, lookupCount]
  | cons p rest ih =>
    rcases p with ⟨k', w⟩
    by_cases h : k' = k
    · simp [setCount, h, lookupCount]
    · simp [setCount, h, lookupCount, ih]

theorem lookupCount_setCount_ne (m : List (Str × Nat)) (k k' : Str) (v : Nat)
    (h : k ≠ k') : lookupCount (setCount m k v) k' = lookupCount m k' := by
  induction m with
  | nil => simp [setCount, lookupCount, h]
  | cons p rest ih =>
    rcases p with ⟨a, w⟩
    rw [setCount]
    by_cases ha : a = k
    · rw [if_pos ha]
      have hak' : a ≠ k' := by rw [ha]; exact h
      simp only [lookupCount, if_neg hak']
    · rw [if_neg ha]
      simp only [lookupCount]
      by_cases ha' : a = k'
      · rw [if_pos ha', if_pos ha']
      · rw [if_neg ha', if_neg ha', ih]

theorem runRows_ne_aborted (dl : Job → Bool) :
    ∀ (rows : List (List Str)) (st : LoopState),
      runRows dl st rows ≠ RunOutcome.abortedNoAuth := by
  intro rows
  induction rows with
  | nil => intro st; simp [runRows]
  | cons row rest ih =>
    intro st
    rw [runRows]
    rcases h : processRow st row with _ | ⟨st', oj⟩
    · simp
    · rcases oj with _ | j
      · exact ih st'
      · rcases hrec : runRows dl st' rest with _ | js | js
        · exact absurd hrec (ih st')
        · simp [hrec]
        · simp [hrec]

/-- On a non-header row, one loop iteration either skips the row leaving the
state untouched, raises out of `parse_time_range`, or emits a job whose
segment index extends the per-reference count. -/
theorem processRow_nonheader (st : LoopState) (row : List Str)
    (h : isHeaderRow row = false) :
    processRow st row = .ok (st, none) ∨
    processRow st row = .error () ∨
    ∃ j : Job,
      processRow st row = .ok ({ st with
          video_id_counts := setCount st.video_id_counts j.video_id j.seg_num },
        some j) ∧
      j.pfx = st.pfx.getD [] ∧
      lookupCount st.video_id_counts j.video_id =
        (if j.seg_num = 0 then none else some (j.seg_num - 1)) ∧
      truthy st.pfx = true := by
  unfold processRow
  rw [if_neg (by simp [h])]
  by_cases h2 : row.length < 2
  · rw [if_pos h2]; left; rfl
  rw [if_neg h2]
  by_cases h3 : (!truthy st.pfx || st.output_folder.isNone) = true
  · rw [if_pos h3]; left; rfl
  rw [if_neg h3]
  simp only []
  by_cases h4 : ((pyStrip (row.headD [])).isEmpty || (pyStrip (row.getD 1 [])).isEmpty) = true
  · rw [if_pos h4]; left; rfl
  rw [if_neg h4]
  by_cases h5 : (pyStrip (row.headD [])).length ≠ 11
  · rw [if_pos h5]; left; rfl
  rw [if_neg h5]
  rcases hparse : parse_time_range (pyStrip (row.getD 1 [])) with _ | ⟨s, e⟩
  · right; left; rfl
  right; right
  have hpfx : truthy st.pfx = true := by
    by_contra hc
    have hfalse : truthy st.pfx = false := by
      cases h' : truthy st.pfx
      · rfl
      · exact absurd h' hc
    exact h3 (by rw [hfalse]; rfl)
  rcases hlk : lookupCount st.video_id_counts (pyStrip (row.headD [])) with _ | v
  · refine ⟨⟨st.pfx.getD [], pyStrip (row.headD []), s, e, 0,
      (st.pfx.getD []) ++ '-' :: pyStrip (row.headD [])
        ++ "_seg".data ++ natRepr 0 ++ ".wav".data⟩, ?_, rfl, by simpa using hlk, hpfx⟩
    simp only [hlk, lookupCount_setCount_self, Option.getD_some]
  · refine ⟨⟨st.pfx.getD [], pyStrip (row.headD []), s, e, v + 1,
      (st.pfx.getD []) ++ '-' :: pyStrip (row.headD [])
        ++ "_seg".data ++ natRepr (v + 1) ++ ".wav".data⟩, ?_, rfl, by simpa using hlk, hpfx⟩
    simp only [hlk, lookupCount_setCount_self, Option.getD_some]

theorem runRows_cons_skip (dl : Job → Bool) (st : LoopState) (row : List Str)
    (rest : List (List Str)) (st' : LoopState)
    (h : processRow st row = .ok (st', none)) :
    runRows dl st (row :: rest) = runRows dl st' rest := by
  simp only [runRows, h]

theorem runRows_cons_err (dl : Job → Bool) (st : LoopState) (row : List Str)
    (rest : List (List Str)) (h : processRow st row = .error ()) :
    runRows dl st (row :: rest) = .crashed [] := by
  simp only [runRows, h]

theorem runRows_cons_job (dl : Job → Bool) (st : LoopState) (row : List Str)
    (rest : List (List Str)) (st' : LoopState) (j : Job)
    (h : processRow st row = .ok (st', some j)) :
    (runRows dl st (row :: rest)).jobsDone
      = (j, dl j) :: (runRows dl st' rest).jobsDone := by
  simp only [runRows, h]
  rcases hrec : runRows dl st' rest with _ | js | js
  · exact absurd hrec (runRows_ne_aborted dl rest st')
  · simp [RunOutcome.jobsDone]
  · simp [RunOutcome.jobsDone]

/-- Within one category section (no header rows), the segment indices handed
out for a fixed reference `r` continue the count recorded for `r`, in
consecutive increasing order. -/
theorem runRows_section (dl : Job → Bool) (c f r : Str) :
    ∀ (rows : List (List Str)) (counts : List (Str × Nat)) (n : Nat),
      (∀ row ∈ rows, isHeaderRow row = false) →
      lookupCount counts r = (if n = 0 then none else some (n - 1)) →
      ∃ k, (((runRows dl ⟨some c, some f, counts⟩ rows).jobsDone.map Prod.fst).filter
              (fun j => j.pfx == c && j.video_id == r)).map Job.seg_num
            = List.range' n k := by
  intro rows
  induction rows with
  | nil =>
    intro counts n _ _
    exact ⟨0, by simp [runRows, RunOutcome.jobsDone]⟩
  | cons row rest ih =>
    intro counts n hnh hinv
    have hrow : isHeaderRow row = false := hnh row (by simp)
    have hrest : ∀ row' ∈ rest, isHeaderRow row' = false :=
      fun row' h' => hnh row' (by simp [h'])
    rcases processRow_nonheader ⟨some c, some f, counts⟩ row hrow with
      hskip | herr | ⟨j, hpr, hjp, hjinv, _⟩
    · rw [runRows_cons_skip dl _ row rest _ hskip]
      exact ih counts n hrest hinv
    · rw [runRows_cons_err dl _ row rest herr]
      exact ⟨0, by simp [RunOutcome.jobsDone]⟩
    · have hjc : j.pfx = c := by simpa using hjp
      by_cases hv : j.video_id = r
      · have hseg : j.seg_num = n := by
          rw [hv, hinv] at hjinv
          by_cases hn : n = 0 <;> by_cases hs : j.seg_num = 0 <;>
            simp [hn, hs] at hjinv ⊢ <;> omega
        obtain ⟨k, hk⟩ := ih (setCount counts j.video_id j.seg_num) (n + 1) hrest (by
          rw [hv] at *
          rw [lookupCount_setCount_self, hseg]
          simp)
        refine ⟨k + 1, ?_⟩
        rw [runRows_cons_job dl _ row rest _ j hpr]
        simp only [List.map_cons, List.filter_cons]
        rw [if_pos (by simp [hjc, hv])]
        rw [hseg] at hk
        simp only [List.map_cons, hseg, hk, List.range'_succ]
      · obtain ⟨k, hk⟩ := ih (setCount counts j.video_id j.seg_num) n hrest (by
          rw [lookupCount_setCount_ne counts j.video_id r j.seg_num hv]
          exact hinv)
        refine ⟨k, ?_⟩
        rw [runRows_cons_job dl _ row rest _ j hpr]
        simp only [List.map_cons, List.filter_cons]
        rw [if_neg (by simp [hv])]
        exact hk

/-- On a header row the prefix is overwritten with the extraction result:
a truthy label switches the Category (new folder, counters reset), anything
else leaves folder and counters but replaces the prefix; no Job is emitted
either way. -/
theorem processRow_header (st : LoopState) (row : List Str)
    (hh : isHeaderRow row = true) :
    processRow st row =
      (if truthy (extract_prefix_from_header (row.headD [])) then
        .ok (⟨extract_prefix_from_header (row.headD []),
          (extract_prefix_from_header (row.headD [])).map (fun l => "wav/".data ++ l),
          []⟩, none)
      else .ok ({ st with pfx := extract_prefix_from_header (row.headD []) }, none)) := by
  unfold processRow
  rw [if_pos hh]

/-- With no active prefix, a non-header row is always skipped with the state
unchanged. -/
theorem processRow_no_pfx (st : LoopState) (row : List Str)
    (hp : st.pfx = none) (hh : isHeaderRow row = false) :
    processRow st row = .ok (st, none) := by
  unfold processRow
  rw [if_neg (by simp [hh])]
  by_cases h2 : row.length < 2
  · rw [if_pos h2]
  · rw [if_neg h2, if_pos (by simp [hp, truthy])]

/-- A manifest with no header row never yields a Job. -/
theorem runRows_no_pfx (dl : Job → Bool) :
    ∀ (rows : List (List Str)) (st : LoopState), st.pfx = none →
      (∀ row ∈ rows, isHeaderRow row = false) →
      runRows dl st rows = .completed [] := by
  intro rows
  induction rows with
  | nil => intro st _ _; rfl
  | cons row rest ih =>
    intro st hp hnh
    rw [runRows_cons_skip dl st row rest st
      (processRow_no_pfx st row hp (hnh row (by simp)))]
    exact ih st hp (fun row' h' => hnh row' (by simp [h']))

/-- The stream of emitted Jobs does not depend on the download oracle. -/
theorem runRows_jobs_indep (dl dl' : Job → Bool) :
    ∀ (rows : List (List Str)) (st : LoopState),
      (runRows dl st rows).jobsDone.map Prod.fst
        = (runRows dl' st rows).jobsDone.map Prod.fst := by
  intro rows
  induction rows with
  | nil => intro st; rfl
  | cons row rest ih =>
    intro st
    rcases h : processRow st row with _ | ⟨st', oj⟩
    · rw [runRows_cons_err dl st row rest (by rw [h]),
        runRows_cons_err dl' st row rest (by rw [h])]
    · rcases oj with _ | j
      · rw [runRows_cons_skip dl st row rest st' h,
          runRows_cons_skip dl' st row rest st' h]
        exact ih st'
      · rw [runRows_cons_job dl st row rest st' j h,
          runRows_cons_job dl' st row rest st' j h]
        simp only [List.map_cons]
        rw [ih st']

/-! ### Claim theorems -/

/-- C3 (counterexample): the claim says a time-range parse failure drops only
that row and the following rows continue.  On the manifest below the bad
second data row crashes the whole run (zero jobs); deleting the bad row
shows the third row would have produced a job, so it was lost to the abort,
not processed. -/
theorem C3_parse_failure_cex :
    runRows (fun _ => true) initState
      [["id (SC)".data], ["abcdefghijk".data, "x-y".data],
       ["abcdefghijk".data, "0:05-0:10".data]] = .crashed [] ∧
    (runRows (fun _ => true) initState
      [["id (SC)".data], ["abcdefghijk".data, "0:05-0:10".data]]).jobsDone.length
      = 1 := by
  constructor
  · decide
  · decide

/-- C3 (amended): a failure to parse the time-range cell of a data row is
not recovered locally: the `ValueError` escapes the row loop, the run
aborts at that row with only the previously emitted jobs, and the rows after
the failing one are never read (the outcome is the same whatever follows). -/
theorem C3_parse_failure_aborts_run (dl : Job → Bool) (st : LoopState)
    (row : List Str) (rest : List (List Str))
    (h : processRow st row = .error ()) :
    runRows dl st (row :: rest) = .crashed [] ∧
    ∀ rest', runRows dl st (row :: rest) = runRows dl st (row :: rest') := by
  refine ⟨runRows_cons_err dl st row rest h, fun rest' => ?_⟩
  rw [runRows_cons_err dl st row rest h, runRows_cons_err dl st row rest' h]

/-- Witness for C3: a concrete state and row on which the time cell fails to
parse. -/
theorem C3_parse_failure_aborts_run_witness :
    runRows (fun _ => true) ⟨some "SC".data, some "wav/SC".data, []⟩
      (["abcdefghijk".data, "x-y".data] :: [["abcdefghijk".data, "0:05-0:10".data]])
      = .crashed [] ∧
    ∀ rest', runRows (fun _ => true) ⟨some "SC".data, some "wav/SC".data, []⟩
      (["abcdefghijk".data, "x-y".data] :: [["abcdefghijk".data, "0:05-0:10".data]])
      = runRows (fun _ => true) ⟨some "SC".data, some "wav/SC".data, []⟩
        (["abcdefghijk".data, "x-y".data] :: rest') :=
  C3_parse_failure_aborts_run (fun _ => true) ⟨some "SC".data, some "wav/SC".data, []⟩
    ["abcdefghijk".data, "x-y".data] [["abcdefghijk".data, "0:05-0:10".data]]
    (by decide)

/-- C4 (counterexample): the claim says a token with more than 3
colon-separated components, or with a non-numeric component, makes
`time_to_seconds` fail.  Both "1:2:3:4" (4 numeric components) and
"1:2:3:x" (a non-numeric component) silently return 1 instead. -/
theorem C4_extra_components_cex :
    time_to_seconds "1:2:3:4".data = some 1 ∧
    time_to_seconds "1:2:3:x".data = some 1 := by
  constructor
  · decide
  · decide

/-- C4 (amended): `time_to_seconds` fails exactly when a component it
actually reads is non-numeric: with exactly 2 or exactly 3 components it
reads all of them, but with any other component count (1, or more than 3) it
reads only the first component and silently returns its value. -/
theorem C4_failure_characterization (s : Str) :
    ((splitOnChar ':' s).length = 2 →
      (time_to_seconds s = none ↔
        pyInt ((splitOnChar ':' s).getD 0 []) = none ∨
        pyInt ((splitOnChar ':' s).getD 1 []) = none)) ∧
    ((splitOnChar ':' s).length = 3 →
      (time_to_seconds s = none ↔
        pyInt ((splitOnChar ':' s).getD 0 []) = none ∨
        pyInt ((splitOnChar ':' s).getD 1 []) = none ∨
        pyInt ((splitOnChar ':' s).getD 2 []) = none)) ∧
    ((splitOnChar ':' s).length ≠ 2 → (splitOnChar ':' s).length ≠ 3 →
      time_to_seconds s = pyInt ((splitOnChar ':' s).headD [])) := by
  rcases hp : splitOnChar ':' s with _ | ⟨a, _ | ⟨b, _ | ⟨c, rest⟩⟩⟩
  · exact absurd hp (splitOnChar_ne_nil ':' s)
  · refine ⟨by intro h; simp at h, by intro h; simp at h, fun _ _ => ?_⟩
    unfold time_to_seconds
    rw [hp]
  · refine ⟨fun _ => ?_, by intro h; simp at h, by intro h _; simp at h⟩
    have hts : time_to_seconds s = (pyInt a).bind fun x =>
        (pyInt b).bind fun y => some (x * 60 + y) := by
      unfold time_to_seconds
      rw [hp]
      rfl
    rw [hts]
    rcases hx : pyInt a with _ | x
    · simp [hx]
    · rcases hy : pyInt b with _ | y
      · simp [hx, hy]
      · simp [hx, hy]
  · rcases rest with _ | ⟨d, rest'⟩
    · refine ⟨by intro h; simp at h, fun _ => ?_, by intro _ h; simp at h⟩
      have hts : time_to_seconds s = (pyInt a).bind fun x =>
          (pyInt b).bind fun y => (pyInt c).bind fun z =>
            some (x * 3600 + y * 60 + z) := by
        unfold time_to_seconds
        rw [hp]
        rfl
      rw [hts]
      rcases hx : pyInt a with _ | x
      · simp [hx]
      · rcases hy : pyInt b with _ | y
        · simp [hx, hy]
        · rcases hz : pyInt c with _ | z
          · simp [hx, hy, hz]
          · simp [hx, hy, hz]
    · refine ⟨by intro h; simp at h, by intro h; simp at h, fun _ _ => ?_⟩
      unfold time_to_seconds
      rw [hp]

/-- Witness for C4 (amended): instantiated at the 4-component token. -/
theorem C4_failure_characterization_witness :
    time_to_seconds "1:2:3:4".data
      = pyInt ((splitOnChar ':' "1:2:3:4".data).headD []) :=
  (C4_failure_characterization "1:2:3:4".data).2.2 (by decide) (by decide)

/-- C5 (counterexample): the claim says a header-marker row with no
parenthesized substring leaves the active Category unchanged and later data
rows are still processed under it.  In fact the prefix is overwritten with
None: below, after the bad header "id (", the valid data row produces no
job, while without the bad header it produces one. -/
theorem C5_header_without_label_cex :
    processRow ⟨some "A".data, some "wav/A".data, []⟩ ["id (".data]
      = .ok (⟨none, some "wav/A".data, []⟩, none) ∧
    runRows (fun _ => true) initState
      [["id (A)".data], ["id (".data], ["abcdefghijk".data, "0:05-0:10".data]]
      = .completed [] ∧
    (runRows (fun _ => true) initState
      [["id (A)".data], ["abcdefghijk".data, "0:05-0:10".data]]).jobsDone.length
      = 1 := by
  refine ⟨by decide, by decide, by decide⟩

/-- C5 (amended): on a header row whose first cell contains the header
marker but no parenthesized substring, the active Category label is
overwritten with None — clearing it — while the output folder and the
segment counters are left unchanged; the row produces no Job, and
subsequent non-header rows are skipped (state unchanged, no Job) until a
valid header appears. -/
theorem C5_header_without_label_clears_category :
    (∀ (st : LoopState) (row : List Str),
      isHeaderRow row = true →
      extract_prefix_from_header (row.headD []) = none →
      processRow st row = .ok ({ st with pfx := none }, none)) ∧
    (∀ (st : LoopState) (row : List Str),
      st.pfx = none → isHeaderRow row = false →
      processRow st row = .ok (st, none)) := by
  constructor
  · intro st row hh hex
    rw [processRow_header st row hh, hex]
    rfl
  · intro st row hp hh
    exact processRow_no_pfx st row hp hh

/-- Witness for C5 (amended): the header "id ()" clears a live Category. -/
theorem C5_header_without_label_clears_category_witness :
    processRow ⟨some "B".data, some "wav/B".data, [("abcdefghijk".data, 0)]⟩
      ["id ()".data]
      = .ok (⟨none, some "wav/B".data, [("abcdefghijk".data, 0)]⟩, none) :=
  C5_header_without_label_clears_category.1
    ⟨some "B".data, some "wav/B".data, [("abcdefghijk".data, 0)]⟩
    ["id ()".data] (by decide) (by decide)

/-- C6: processing a manifest in physical row order, every header row that
introduces a Category resets all segment counters to empty; within a
section the segment indices handed out for a fixed (Category, reference)
pair are exactly 0, 1, 2, ... in row order; and concretely a reference at
seg1 under Category A restarts at seg0 under Category B. -/
theorem C6_segment_numbering :
    (∀ (st : LoopState) (row : List Str),
      isHeaderRow row = true →
      truthy (extract_prefix_from_header (row.headD [])) = true →
      processRow st row = .ok (⟨extract_prefix_from_header (row.headD []),
        (extract_prefix_from_header (row.headD [])).map (fun l => "wav/".data ++ l),
        []⟩, none)) ∧
    (∀ (dl : Job → Bool) (rows : List (List Str)) (c f r : Str),
      (∀ row ∈ rows, isHeaderRow row = false) →
      (((runRows dl ⟨some c, some f, []⟩ rows).jobsDone.map Prod.fst).filter
          (fun j => j.pfx == c && j.video_id == r)).map Job.seg_num
        = List.range ((((runRows dl ⟨some c, some f, []⟩ rows).jobsDone.map
            Prod.fst).filter (fun j => j.pfx == c && j.video_id == r)).length)) ∧
    ((runRows (fun _ => true) initState
        [["id (A)".data], ["abcdefghijk".data, "0:05-0:10".data],
         ["abcdefghijk".data, "0:15-0:20".data], ["id (B)".data],
         ["abcdefghijk".data, "0:25-0:30".data]]).jobsDone.map
        (fun p => (p.1.pfx, p.1.seg_num)))
      = [("A".data, 0), ("A".data, 1), ("B".data, 0)] := by
  refine ⟨?_, ?_, by decide⟩
  · intro st row hh hex
    rw [processRow_header st row hh, if_pos hex]
  · intro dl rows c f r hnh
    obtain ⟨k, hk⟩ := runRows_section dl c f r rows [] 0 hnh (by simp [lookupCount])
    have hlen : ((((runRows dl ⟨some c, some f, []⟩ rows).jobsDone.map
        Prod.fst).filter (fun j => j.pfx == c && j.video_id == r)).length) = k := by
      have := congrArg List.length hk
      simpa using this
    rw [hk, hlen, List.range_eq_range']

/-- Witness for C6: two data rows for the same reference under one category
receive indices 0 and 1. -/
theorem C6_segment_numbering_witness :
    (((runRows (fun _ => true) ⟨some "A".data, some "wav/A".data, []⟩
        [["abcdefghijk".data, "0:05-0:10".data],
         ["abcdefghijk".data, "0:15-0:20".data]]).jobsDone.map Prod.fst).filter
        (fun j => j.pfx == "A".data && j.video_id == "abcdefghijk".data)).map
        Job.seg_num
      = List.range ((((runRows (fun _ => true) ⟨some "A".data, some "wav/A".data, []⟩
        [["abcdefghijk".data, "0:05-0:10".data],
         ["abcdefghijk".data, "0:15-0:20".data]]).jobsDone.map Prod.fst).filter
        (fun j => j.pfx == "A".data && j.video_id == "abcdefghijk".data)).length) :=
  C6_segment_numbering.2.1 (fun _ => true)
    [["abcdefghijk".data, "0:05-0:10".data], ["abcdefghijk".data, "0:15-0:20".data]]
    "A".data "wav/A".data "abcdefghijk".data (by decide)

/-- C7: a Job is produced from a row only if the row is not a header row, an
active Category exists (truthy prefix and an output folder), the first two
cells are non-empty after trimming (hence the row has at least two non-empty
cells), and the first cell trims to exactly 11 characters; moreover a
manifest containing no header row produces no Job at all. -/
theorem C7_job_production_conditions :
    (∀ (st : LoopState) (row : List Str) (st' : LoopState) (j : Job),
      processRow st row = .ok (st', some j) →
      isHeaderRow row = false ∧
      truthy st.pfx = true ∧
      st.output_folder.isSome = true ∧
      2 ≤ row.length ∧
      (pyStrip (row.headD [])).isEmpty = false ∧
      (pyStrip (row.getD 1 [])).isEmpty = false ∧
      (pyStrip (row.headD [])).length = 11 ∧
      2 ≤ ((row.map pyStrip).filter (fun cell => !cell.isEmpty)).length) ∧
    (∀ (dl : Job → Bool) (rows : List (List Str)),
      (∀ row ∈ rows, isHeaderRow row = false) →
      runRows dl initState rows = .completed []) := by
  constructor
  · intro st row st' j h
    by_cases hh : isHeaderRow row = true
    · exfalso
      rw [processRow_header st row hh] at h
      by_cases ht : truthy (extract_prefix_from_header (row.headD [])) = true
      · rw [if_pos ht] at h; simp at h
      · rw [if_neg ht] at h; simp at h
    have hh' : isHeaderRow row = false := by
      cases hx : isHeaderRow row
      · rfl
      · exact absurd hx hh
    unfold processRow at h
    rw [if_neg (by simp [hh'])] at h
    by_cases h2 : row.length < 2
    · rw [if_pos h2] at h; simp at h
    rw [if_neg h2] at h
    by_cases h3 : (!truthy st.pfx || st.output_folder.isNone) = true
    · rw [if_pos h3] at h; simp at h
    rw [if_neg h3] at h
    by_cases h4 : ((pyStrip (row.headD [])).isEmpty
        || (pyStrip (row.getD 1 [])).isEmpty) = true
    · rw [if_pos h4] at h; simp at h
    rw [if_neg h4] at h
    by_cases h5 : (pyStrip (row.headD [])).length ≠ 11
    · rw [if_pos h5] at h; simp at h
    have h3' : truthy st.pfx = true ∧ st.output_folder.isNone = false := by
      have hfalse : (!truthy st.pfx || st.output_folder.isNone) = false := by
        cases hx : (!truthy st.pfx || st.output_folder.isNone)
        · rfl
        · exact absurd hx h3
      obtain ⟨hl, hr⟩ := Bool.or_eq_false_iff.mp hfalse
      exact ⟨by simpa using hl, hr⟩
    have h4' : (pyStrip (row.headD [])).isEmpty = false ∧
        (pyStrip (row.getD 1 [])).isEmpty = false := by
      have hfalse : ((pyStrip (row.headD [])).isEmpty
          || (pyStrip (row.getD 1 [])).isEmpty) = false := by
        cases hx : ((pyStrip (row.headD [])).isEmpty
            || (pyStrip (row.getD 1 [])).isEmpty)
        · rfl
        · exact absurd hx h4
      exact Bool.or_eq_false_iff.mp hfalse
    refine ⟨hh', h3'.1, ?_, by omega, h4'.1, h4'.2, by omega, ?_⟩
    · have hnone := h3'.2
      rcases hopt : st.output_folder with _ | v
      · rw [hopt] at hnone; simp at hnone
      · rfl
    · rcases row with _ | ⟨r0, rtl⟩
      · exact absurd (by simp) h2
      rcases rtl with _ | ⟨r1, rrest⟩
      · exact absurd (by simp) h2
      have e1 : (pyStrip r0).isEmpty = false := by simpa using h4'.1
      have e2 : (pyStrip r1).isEmpty = false := by simpa using h4'.2
      simp only [List.map_cons, List.filter_cons, e1, e2]
      simp
  · intro dl rows hnh
    exact runRows_no_pfx dl rows initState rfl hnh

/-- Witness for C7: a concrete row that does produce a Job, satisfying every
stated condition. -/
theorem C7_job_production_conditions_witness :
    isHeaderRow ["abcdefghijk".data, "4:15-6:15".data] = false ∧
    truthy (some "SC".data) = true ∧
    (some "wav/SC".data : Option Str).isSome = true ∧
    2 ≤ (["abcdefghijk".data, "4:15-6:15".data] : List Str).length ∧
    (pyStrip ((["abcdefghijk".data, "4:15-6:15".data] : List Str).headD [])).isEmpty
      = false ∧
    (pyStrip ((["abcdefghijk".data, "4:15-6:15".data] : List Str).getD 1 [])).isEmpty
      = false ∧
    (pyStrip ((["abcdefghijk".data, "4:15-6:15".data] : List Str).headD [])).length
      = 11 ∧
    2 ≤ (((["abcdefghijk".data, "4:15-6:15".data] : List Str).map pyStrip).filter
          (fun cell => !cell.isEmpty)).length :=
  C7_job_production_conditions.1
    ⟨some "SC".data, some "wav/SC".data, []⟩
    ["abcdefghijk".data, "4:15-6:15".data]
    ⟨some "SC".data, some "wav/SC".data, [("abcdefghijk".data, 0)]⟩
    ⟨"SC".data, "abcdefghijk".data, 255, 375, 0, "SC-abcdefghijk_seg0.wav".data⟩
    (by decide)

/-- C8: when neither the stored credential file nor any of the five
recognized browser credential directories exists, the run exits with status
1 before reading any manifest row — the outcome is the same constant for
every manifest and download behaviour, and no job is attempted; when some
authorization source exists, the row loop runs on the manifest. -/
theorem C8_no_auth_aborts (env : RunEnv) (dl : Job → Bool) (rows : List (List Str))
    (hc : env.cookiesFileExists = false)
    (h1 : env.chromeConfig = false) (h2 : env.chromeAppSupport = false)
    (h3 : env.safariCookies = false) (h4 : env.firefoxMozilla = false)
    (h5 : env.firefoxAppSupport = false) :
    mainRun env dl rows = .abortedNoAuth ∧
    (mainRun env dl rows).exitCode = 1 ∧
    (mainRun env dl rows).jobsDone = [] ∧
    (∀ rows' (dl' : Job → Bool), mainRun env dl rows = mainRun env dl' rows') := by
  have habort : ∀ (dl' : Job → Bool) (rs : List (List Str)),
      mainRun env dl' rs = .abortedNoAuth := by
    intro dl' rs
    unfold mainRun
    rw [hc, h1, h2, h3, h4, h5]
    rfl
  refine ⟨habort dl rows, ?_, ?_, fun rows' dl' => ?_⟩
  · rw [habort dl rows]; rfl
  · rw [habort dl rows]; rfl
  · rw [habort dl rows, habort dl' rows']

/-- Witness for C8: the all-absent environment aborts on a non-trivial
manifest. -/
theorem C8_no_auth_aborts_witness :
    mainRun ⟨false, false, false, false, false, false⟩ (fun _ => true)
      [["id (A)".data], ["abcdefghijk".data, "0:05-0:10".data]] = .abortedNoAuth ∧
    (mainRun ⟨false, false, false, false, false, false⟩ (fun _ => true)
      [["id (A)".data], ["abcdefghijk".data, "0:05-0:10".data]]).exitCode = 1 ∧
    (mainRun ⟨false, false, false, false, false, false⟩ (fun _ => true)
      [["id (A)".data], ["abcdefghijk".data, "0:05-0:10".data]]).jobsDone = [] ∧
    (∀ rows' (dl' : Job → Bool),
      mainRun ⟨false, false, false, false, false, false⟩ (fun _ => true)
        [["id (A)".data], ["abcdefghijk".data, "0:05-0:10".data]]
        = mainRun ⟨false, false, false, false, false, false⟩ dl' rows') :=
  C8_no_auth_aborts ⟨false, false, false, false, false, false⟩ (fun _ => true)
    [["id (A)".data], ["abcdefghijk".data, "0:05-0:10".data]]
    rfl rfl rfl rfl rfl rfl

/-- C9: every valid time token — at most 3 colon-separated components, each
a non-negative numeric string — parses to a non-negative number of seconds,
and formatting that number with `format_time` (zero-padded MM:SS below one
hour, HH:MM:SS otherwise) and re-parsing recovers exactly the same value. -/
theorem C9_time_roundtrip (s : Str)
    (hlen : (splitOnChar ':' s).length ≤ 3)
    (hnum : (splitOnChar ':' s).all nonnegNumeric = true) :
    ∃ n : Nat, time_to_seconds s = some (n : Int) ∧
      time_to_seconds (format_time n) = some (n : Int) := by
  have hnn : ∀ p ∈ splitOnChar ':' s, ∃ v : Int, pyInt p = some v ∧ 0 ≤ v := by
    intro p hp'
    have hall := List.all_eq_true.mp hnum p hp'
    unfold nonnegNumeric at hall
    rcases hv : pyInt p with _ | v
    · rw [hv] at hall; cases hall
    · rw [hv] at hall
      exact ⟨v, rfl, by simpa using hall⟩
  rcases hp : splitOnChar ':' s with _ | ⟨a, _ | ⟨b, _ | ⟨c, rest⟩⟩⟩
  · exact absurd hp (splitOnChar_ne_nil ':' s)
  · obtain ⟨va, hva, hva0⟩ := hnn a (by rw [hp]; simp)
    refine ⟨va.toNat, ?_, time_to_seconds_format va.toNat⟩
    have hts : time_to_seconds s = pyInt a := by
      unfold time_to_seconds; rw [hp]; rfl
    rw [hts, hva, Int.toNat_of_nonneg hva0]
  · obtain ⟨va, hva, hva0⟩ := hnn a (by rw [hp]; simp)
    obtain ⟨vb, hvb, hvb0⟩ := hnn b (by rw [hp]; simp)
    refine ⟨(va * 60 + vb).toNat, ?_, time_to_seconds_format _⟩
    have hts : time_to_seconds s = (pyInt a).bind fun x =>
        (pyInt b).bind fun y => some (x * 60 + y) := by
      unfold time_to_seconds; rw [hp]; rfl
    have h0 : (0 : Int) ≤ va * 60 + vb := by omega
    rw [hts, hva, hvb]
    simp [Int.toNat_of_nonneg h0]
  · rcases rest with _ | ⟨d, rest'⟩
    · obtain ⟨va, hva, hva0⟩ := hnn a (by rw [hp]; simp)
      obtain ⟨vb, hvb, hvb0⟩ := hnn b (by rw [hp]; simp)
      obtain ⟨vc, hvc, hvc0⟩ := hnn c (by rw [hp]; simp)
      refine ⟨(va * 3600 + vb * 60 + vc).toNat, ?_, time_to_seconds_format _⟩
      have hts : time_to_seconds s = (pyInt a).bind fun x =>
          (pyInt b).bind fun y => (pyInt c).bind fun z =>
            some (x * 3600 + y * 60 + z) := by
        unfold time_to_seconds; rw [hp]; rfl
      have h0 : (0 : Int) ≤ va * 3600 + vb * 60 + vc := by omega
      rw [hts, hva, hvb, hvc]
      simp [Int.toNat_of_nonneg h0]
    · exfalso
      rw [hp] at hlen
      simp at hlen

/-- Witness for C9: the token "4:15" (255 seconds). -/
theorem C9_time_roundtrip_witness :
    ∃ n : Nat, time_to_seconds "4:15".data = some (n : Int) ∧
      time_to_seconds (format_time n) = some (n : Int) :=
  C9_time_roundtrip "4:15".data (by decide) (by decide)

/-- C10: the per-reference segment counter is advanced when the Job is
formed, before and independently of the acquisition outcome: `main`
discards the acquirer's boolean, so the stream of Jobs (and their segment
indices) is identical under every download oracle; concretely, when the
first download for a reference fails, its next occurrence still receives
segment index 1, leaving a gap among the files actually produced. -/
theorem C10_counter_advances_regardless_of_outcome :
    (∀ (dl dl' : Job → Bool) (st : LoopState) (rows : List (List Str)),
      (runRows dl st rows).jobsDone.map Prod.fst
        = (runRows dl' st rows).jobsDone.map Prod.fst) ∧
    (∀ (env : RunEnv) (dl dl' : Job → Bool) (rows : List (List Str)),
      (mainRun env dl rows).jobsDone.map Prod.fst
        = (mainRun env dl' rows).jobsDone.map Prod.fst) ∧
    ((runRows (fun j => !(j.seg_num == 0)) initState
        [["id (A)".data], ["abcdefghijk".data, "0:05-0:10".data],
         ["abcdefghijk".data, "0:15-0:20".data]]).jobsDone.map
        (fun p => (p.1.seg_num, p.2)) = [(0, false), (1, true)]) := by
  refine ⟨fun dl dl' st rows => runRows_jobs_indep dl dl' rows st,
    fun env dl dl' rows => ?_, by decide⟩
  simp only [mainRun]
  split
  · rfl
  · exact runRows_jobs_indep dl dl' rows initState
